import Mathlib

/-!
Verification development for the `power_list` repository: a shallow embedding of
`scatter_allocator.h` and `power_list.h` (C++ namespace `kg`), together with
theorems that check the specification's claims against the embedded code.

Modelling conventions:
* machine pointers are natural-number addresses; a null pointer is `none`;
* the node heap is an association list from addresses to node records; reading an
  address that holds no live node models a use-after-free, reading through `none`
  models a null dereference; both produce `Res.err`;
* loops whose termination is not structural take a fuel argument; exhausted fuel
  yields `Res.timeout`, so `∀ fuel, … = Res.timeout` expresses non-termination;
* a failed debug-time `assert` in the source is modelled as `Res.err "assert"`;
* `DefaultStartingSize` is fixed at its default value 16, and the element type
  `T` of `power_list<T>` is fixed at `Int` (all claims use integer lists);
* `count : 63` never overflows in any scenario considered, so it is a `Nat`.
-/

namespace kg

/-- Outcome of running a piece of embedded code: a value, a runtime error
(null dereference, use-after-free, out-of-bounds access or failed `assert`),
or fuel exhaustion (used to witness non-termination). -/
inductive Res (α : Type) where
  | ok (a : α)
  | err (msg : String)
  | timeout
deriving Repr, DecidableEq

def Res.bind {α β : Type} : Res α → (α → Res β) → Res β
  | .ok a, f => f a
  | .err m, _ => .err m
  | .timeout, _ => .timeout

def Res.map {α β : Type} (f : α → β) : Res α → Res β
  | .ok a => .ok (f a)
  | .err m => .err m
  | .timeout => .timeout

instance : Monad Res where
  pure := Res.ok
  bind := Res.bind
  map := Res.map

/-- `std::bit_width` on `Nat` (number of binary digits); structurally recursive
via a fuel argument equal to the input so that it reduces by `rfl`. -/
def bw_go : Nat → Nat → Nat
  | _, 0 => 0
  | 0, _ + 1 => 0
  | f + 1, n + 1 => 1 + bw_go f ((n + 1) / 2)

def bitWidth (n : Nat) : Nat := bw_go n n

/-! ## scatter_allocator (scatter_allocator.h)

A `span` is a contiguous region `(base, size)` of slot addresses.
A `pool` is `std::span<T> data` (here `base`/`size`) plus `next_available`.
Pools are kept newest first, free blocks most-recently-freed first, exactly as
the `unique_ptr` chains in the source.  Fresh pool storage is modelled by a
monotone address counter `next_base` (pools never overlap).  The template
parameter `DefaultStartingSize` is fixed at its default. -/

abbrev span := Nat × Nat

structure pool where
  next_available : Nat
  base : Nat
  size : Nat
deriving Repr, DecidableEq

structure scatter_allocator where
  pools : List pool
  free_list : List span
  next_base : Nat
deriving Repr, DecidableEq

def DefaultStartingSize : Nat := 16

def fresh_allocator : scatter_allocator := ⟨[], [], 0⟩

/-- The free-list phase of `allocate_with_callback` (lines 60-85 of
scatter_allocator.h).  Returns the spans handed to the callback, the free list
left behind, and the count still unsatisfied.  The source's control flow is kept
exactly: when `remaining` hits zero the function returns at once, leaving the
current block on the free list un-shrunk and un-unlinked; the
`subspan(min_space + 1)` shrink of the source is reproduced verbatim (it is
reachable only when `min_space < span.size` and `remaining > 0`, which the
arithmetic rules out, i.e. it is dead code in the source as well). -/
def alloc_free (rem : Nat) : List span → List span × List span × Nat
  | [] => ([], [], rem)
  | (b, sz) :: fl =>
    let ms := min rem sz
    if ms = 0 then
      let r := alloc_free rem fl
      (r.1, (b, sz) :: r.2.1, r.2.2)
    else if rem - ms = 0 then
      ([(b, ms)], (b, sz) :: fl, 0)
    else if ms = sz then
      let r := alloc_free (rem - ms) fl
      ((b, ms) :: r.1, r.2.1, r.2.2)
    else
      let r := alloc_free (rem - ms) fl
      ((b, ms) :: r.1, (b + ms + 1, sz - (ms + 1)) :: r.2.1, r.2.2)

/-- The walk over existing pools (lines 88-107 of scatter_allocator.h), before
any growth: consume `min(remaining, size - next_available)` from each pool in
order while `remaining > 0`. -/
def consume_pools (rem : Nat) : List pool → List span × List pool × Nat
  | [] => ([], [], rem)
  | p :: ps =>
    if rem = 0 then ([], p :: ps, 0)
    else
      let ms := min rem (p.size - p.next_available)
      if ms = 0 then
        let r := consume_pools rem ps
        (r.1, p :: r.2.1, r.2.2)
      else
        let r := consume_pools (rem - ms) ps
        ((p.base + p.next_available, ms) :: r.1,
          { p with next_available := p.next_available + ms } :: r.2.1, r.2.2)

/-- The capacity chosen by `add_pool`'s caller (line 91-92 of
scatter_allocator.h): `pools ? pools->data.size() << 1
: max(1 << bit_width(remaining), DefaultStartingSize)`. -/
def new_pool_cap (pools : List pool) (rem : Nat) : Nat :=
  match pools with
  | [] => max (2 ^ bitWidth rem) DefaultStartingSize
  | p :: _ => p.size * 2

/-- The growth part of the pools loop: once every existing pool is exhausted and
`remaining > 0`, the source adds a pool and consumes from it immediately (the
subsequent re-walk of the older, exhausted pools contributes nothing and is
elided here).  Each round consumes at least one slot whenever the new capacity
is positive, so fuel `rem + 1` is exact; fuel exhaustion mirrors the
non-termination the source would exhibit with a zero-capacity pool (unreachable
from the initial allocator). -/
def grow_loop : Nat → Nat → List pool → Nat → List span × List pool × Nat
  | 0, _, pools, nb => ([], pools, nb)
  | _ + 1, 0, pools, nb => ([], pools, nb)
  | fuel + 1, rem, pools, nb =>
    let cap := new_pool_cap pools (rem)
    let ms := min rem cap
    let p : pool := ⟨ms, nb, cap⟩
    let r := grow_loop fuel (rem - ms) (p :: pools) (nb + cap)
    ((nb, ms) :: r.1, r.2.1, r.2.2)

/-- `allocate_with_callback` (lines 57-108): free list first, then existing
pools, then growth.  The returned list of spans is the sequence of callback
invocations in order. -/
def allocate_with_callback (a : scatter_allocator) (count : Nat) :
    List span × scatter_allocator :=
  let r1 := alloc_free count a.free_list
  if r1.2.2 = 0 then
    (r1.1, { a with free_list := r1.2.1 })
  else
    let r2 := consume_pools r1.2.2 a.pools
    let r3 := grow_loop (r2.2.2 + 1) r2.2.2 r2.2.1 a.next_base
    (r1.1 ++ r2.1 ++ r3.1,
      { pools := r3.2.1, free_list := r1.2.1, next_base := r3.2.2 })

/-- `allocate_one` (lines 47-55): allocate a single slot; the callback must be
invoked exactly once with a span of size 1 (`none` models the asserts firing). -/
def allocate_one (a : scatter_allocator) : Option Nat × scatter_allocator :=
  let r := allocate_with_callback a 1
  (match r.1 with
   | [(b, 1)] => some b
   | _ => none, r.2)

/-- `deallocate` (lines 110-119): push the span onto the front of the free list.
(The poison write touches memory that the node heap has already dropped; the
debug assert is the separate predicate `validate_addr` below.) -/
def deallocate (a : scatter_allocator) (sp : span) : scatter_allocator :=
  { a with free_list := sp :: a.free_list }

/-- `valid_addr` (lines 128-133), verbatim: with `begin = &front`, `end = &back`
it computes `distance(begin, p) >= 0 && distance(p, end) <= size`. -/
def valid_addr (p b e : Nat) : Bool :=
  (0 ≤ (p : Int) - (b : Int)) && ((e : Int) - (p : Int) ≤ (e : Int) - (b : Int))

/-- `validate_addr` (lines 135-141), verbatim: the conjunction of `valid_addr`
over every live pool. -/
def validate_addr (a : scatter_allocator) (sp : span) : Bool :=
  a.pools.all (fun p => valid_addr sp.1 p.base (p.base + p.size - 1))

/-! ## power_list (power_list.h)

A node is `node { node* next[2]; T data; }` with `T = Int`.  The heap of live
constructed nodes is an association list from addresses to nodes; `hset` is
`std::construct_at` (it overwrites a live node at the same address, which is
exactly what the source does when the allocator hands the address of a live
node out a second time), `hremove` is `std::destroy_at` followed by
`deallocate`'s poisoning: the node is no longer readable. -/

structure node where
  next0 : Option Nat
  next1 : Option Nat
  data : Int
deriving Repr, DecidableEq

abbrev Heap := List (Nat × node)

def hlookup : Heap → Nat → Option node
  | [], _ => none
  | (b, nd) :: h, a => if b = a then some nd else hlookup h a

def hset : Heap → Nat → node → Heap
  | [], a, nd => [(a, nd)]
  | (b, m) :: h, a, nd => if b = a then (a, nd) :: h else (b, m) :: hset h a nd

def hremove : Heap → Nat → Heap
  | [], _ => []
  | (b, m) :: h, a => if b = a then h else (b, m) :: hremove h a

/-- Read the node at an address; the address of a destroyed or never-constructed
node yields a use-after-free error. -/
def readN (h : Heap) (a : Nat) : Res node :=
  match hlookup h a with
  | some nd => .ok nd
  | none => .err "use-after-free"

/-- Dereference a possibly-null pointer. -/
def deref (h : Heap) : Option Nat → Res node
  | none => .err "null-deref"
  | some a => readN h a

structure power_list where
  heap : Heap
  head : Option Nat
  count : Nat
  needs_rebalance : Bool
  alloc : scatter_allocator
deriving Repr, DecidableEq

def empty_list : power_list := ⟨[], none, 0, false, fresh_allocator⟩

/-- The express-lane descent of `find` (lines 418-422):
`while (n->next[0] && val > n->next[0]->data) { prev = n;
n = n->next[val > n->next[1]->data]; }`. -/
def find_descend (h : Heap) (v : Int) : Nat → Option Nat → Nat → Res (Nat × Option Nat)
  | _, _, 0 => .timeout
  | n, prev, fuel + 1 => do
    let nd ← readN h n
    match nd.next0 with
    | none => .ok (n, prev)
    | some s => do
      let sn ← readN h s
      if v > sn.data then do
        let n1 ← deref h nd.next1
        match if v > n1.data then nd.next1 else nd.next0 with
        | some m => find_descend h v m (some n) fuel
        | none => .err "null-deref"
      else .ok (n, prev)

/-- The linear tail of `find` (lines 423-430): `while (n->data < val) {
assert(n->next[0] != nullptr); prev = n; n = n->next[0]; }`. -/
def find_linear (h : Heap) (v : Int) : Nat → Option Nat → Nat → Res (Nat × Option Nat)
  | _, _, 0 => .timeout
  | n, prev, fuel + 1 => do
    let nd ← readN h n
    if nd.data < v then
      match nd.next0 with
      | none => .err "assert"
      | some m => find_linear h v m (some n) fuel
    else .ok (n, prev)

/-- `find` (lines 413-436).  Returns `none` for the end iterator and
`some (curr, prev)` for a found node. -/
def find (s : power_list) (v : Int) (fuel : Nat) : Res (Option (Nat × Option Nat)) :=
  match s.head with
  | none => .ok none
  | some hd => do
    let hn ← readN s.heap hd
    if v < hn.data then .ok none
    else do
      let t ← deref s.heap hn.next1
      if v > t.data then .ok none
      else do
        let r1 ← find_descend s.heap v hd none fuel
        let r2 ← find_linear s.heap v r1.1 r1.2 fuel
        let n2 ← readN s.heap r2.1
        if n2.data = v then .ok (some (r2.1, r2.2)) else .ok none

/-- The loop of `lower_bound` (lines 446-449): `while (val > curr->data)
{ prev = curr; curr = curr->next[val > curr->next[1]->data]; }`.
Note that, unlike `find`, it dereferences `curr->next[1]` even at the tail and
follows `next[0]` even when that is null. -/
def lb_loop (h : Heap) (v : Int) : Nat → Option Nat → Nat → Res (Nat × Option Nat)
  | _, _, 0 => .timeout
  | c, prev, fuel + 1 => do
    let nd ← readN h c
    if v > nd.data then do
      let n1 ← deref h nd.next1
      match if v > n1.data then nd.next1 else nd.next0 with
      | some m => lb_loop h v m (some c) fuel
      | none => .err "null-deref"
    else .ok (c, prev)

/-- `lower_bound` (lines 438-451). -/
def lower_bound (s : power_list) (v : Int) (fuel : Nat) :
    Res (Option (Nat × Option Nat)) :=
  match s.head with
  | none => .ok none
  | some hd => do
    let hn ← readN s.heap hd
    if v < hn.data then .ok (some (hd, none))
    else do
      let r ← lb_loop s.heap v hd none fuel
      .ok (some r)

/-- The interior case of `insert` (lines 359-364): `iterator it = lower_bound(val);
it.prev->next[0] = n; n->next[0] = it.curr; n->next[1] = it.curr->next[1];`.
`s0` already contains the freshly constructed node `n`. -/
def insert_middle (s0 : power_list) (n : Nat) (v : Int) (fuel : Nat) : Res power_list := do
  let r ← lower_bound s0 v fuel
  match r with
  | some (c, some p) => do
    let pn ← readN s0.heap p
    let h1 := hset s0.heap p { pn with next0 := some n }
    let cn ← readN h1 c
    let h2 := hset h1 n ⟨some c, cn.next1, v⟩
    .ok { s0 with heap := h2, count := s0.count + 1, needs_rebalance := true }
  | some (_, none) => .err "null-deref"
  | none => .err "null-deref"

/-- `insert` (lines 341-368).  The node is allocated and constructed first, so
the subsequent case analysis (and the `lower_bound` call of the interior case)
runs on a heap that already holds the new node — significant when the allocator
hands back the address of a live node. -/
def insert (s : power_list) (v : Int) (fuel : Nat) : Res power_list :=
  let r := allocate_one s.alloc
  match r.1 with
  | none => .err "assert"
  | some n =>
    let h0 := hset s.heap n ⟨none, none, v⟩
    let s0 : power_list := { s with heap := h0, alloc := r.2 }
    match s0.head with
    | none =>
      let h1 := hset h0 n ⟨none, some n, v⟩
      .ok { s0 with
              heap := h1
              head := some n
              count := s.count + 1
              needs_rebalance := true }
    | some hd => do
      let hn ← readN h0 hd
      if v < hn.data then
        let h1 := hset h0 n ⟨some hd, hn.next1, v⟩
        .ok { s0 with
                heap := h1
                head := some n
                count := s.count + 1
                needs_rebalance := true }
      else
        match hn.next1 with
        | some lastA => do
          let lastN ← readN h0 lastA
          if lastN.data < v then do
            let h1 := hset h0 lastA { lastN with next0 := some n, next1 := some n }
            let hn2 ← readN h1 hd
            let h2 := hset h1 hd { hn2 with next1 := some n }
            .ok { s0 with heap := h2, count := s.count + 1, needs_rebalance := true }
          else insert_middle s0 n v fuel
        | none => insert_middle s0 n v fuel

/-- `erase` (lines 377-400), taking the iterator as a `(curr, prev)` pair. -/
def erase (s : power_list) (c : Option Nat) (prev : Option Nat) : Res power_list :=
  match c with
  | none => .ok s
  | some n => do
    let nd ← readN s.heap n
    let nxt := nd.next0
    let s2 ←
      match prev with
      | none =>
        match nxt with
        | some nx => do
          let nxn ← readN s.heap nx
          let h1 := hset s.heap nx { nxn with next1 := nd.next1 }
          pure { s with heap := h1, head := nxt }
        | none => pure { s with head := none }
      | some p => do
        let h1 ←
          match nxt with
          | none =>
            match s.head with
            | some hd => do
              let hn ← readN s.heap hd
              pure (hset s.heap hd { hn with next1 := some p })
            | none => Res.err "null-deref"
          | some _ => pure s.heap
        let pn ← readN h1 p
        pure { s with heap := hset h1 p { pn with next0 := nxt } }
    let h3 := hremove s2.heap n
    .ok { s2 with
            heap := h3
            alloc := deallocate s2.alloc (n, 1)
            count := s.count - 1
            needs_rebalance := true }

/-- `remove` (lines 373-375): `erase(find(val))`. -/
def remove (s : power_list) (v : Int) (fuel : Nat) : Res power_list := do
  let r ← find s v fuel
  match r with
  | none => erase s none none
  | some (c, p) => erase s (some c) p

/-! ### balance_helper (lines 20-96) and the iterator (lines 99-193) -/

/-- `balance_helper::stepper { size_t target; size_t size; node* from; }`.
(`from` is a reserved word in Lean, hence `frm`.) -/
structure stepper where
  target : Nat
  size : Nat
  frm : Nat
deriving Repr, DecidableEq

/-- The comparison the sift-down uses: `stepper::operator>` is synthesised from
the defaulted `operator<=>`, i.e. lexicographic on `(target, size, from)` (the
hand-written reversed `operator<` is never called by the heap code). -/
def stepper_gt (a b : stepper) : Bool :=
  b.target < a.target ||
    (a.target = b.target && (b.size < a.size ||
      (a.size = b.size && b.frm < a.frm)))

structure balance_helper where
  curr : Nat
  bcount : Nat
  log_n : Nat
  index : Nat
  steppers : List stepper
deriving Repr, DecidableEq

/-- The stepper set-up loop of the `balance_helper` constructor (lines 44-51):
`for (i = 0, step = count; current != nullptr && i < log_n; i++, step >>= 1)
{ steppers[log_n - 1 - i] = { i + step, step, current };
current = current->next[0]; }`.  The entries are produced in iteration order;
the caller reverses them to account for the descending write positions.
Stopping early on a null `current` leaves array cells default-initialised
(indeterminate) in the source; that is modelled as an error. -/
def mk_steppers (h : Heap) : Option Nat → Nat → Nat → Nat → Res (List stepper)
  | _, _, _, 0 => .ok []
  | none, _, _, _ + 1 => .err "uninit"
  | some a, i, step, k + 1 => do
    let nd ← readN h a
    let rest ← mk_steppers h nd.next0 (i + 1) (step / 2) k
    .ok (⟨i + step, step, a⟩ :: rest)

/-- `balance_helper::balance_helper(node*, size_t)` (line 44):
`log_n = bit_width(count - 1)`, steppers as above. -/
def mk_balance_helper (h : Heap) (n : Nat) (cnt : Nat) : Res balance_helper := do
  let ln := bitWidth (cnt - 1)
  let entries ← mk_steppers h (some n) 0 cnt ln
  .ok ⟨n, cnt, ln, 0, entries.reverse⟩

/-- `balance_helper::operator bool` (lines 77-79): `nullptr != curr->next[0]`. -/
def bh_valid (h : Heap) (bh : balance_helper) : Res Bool := do
  let nd ← readN h bh.curr
  .ok nd.next0.isSome

/-- `drop_front_in_heap` (lines 83-95), verbatim, including its do-while shape:
the first iteration reads `heap[2*index]` and `heap[2*index+1]` before any
bounds check (an out-of-bounds read is an error), the continuation condition
`2*index + 1 < heap.size()` is tested on the updated index. -/
def drop_go (l : List stepper) (i : Nat) : Nat → Res (List stepper)
  | 0 => .timeout
  | fuel + 1 =>
    match l.get? (2 * i), l.get? (2 * i + 1) with
    | some x0, some x1 =>
      let mx := 2 * i + (if stepper_gt x0 x1 then 1 else 0)
      match l.get? i, l.get? mx with
      | some xi, some xm =>
        if stepper_gt xi xm then
          let l2 := (l.set i xm).set mx xi
          if 2 * mx + 1 < l2.length then drop_go l2 mx fuel else .ok l2
        else .ok l
      | _, _ => .err "oob"
    | _, _ => .err "oob"

def drop_front (l : List stepper) : Res (List stepper) :=
  drop_go l 0 (l.length + 1)

/-- The splice loop inside `balance_current_and_advance` (lines 66-72):
`while (heap.front().target == index) { heap.front().from->next[1] =
curr->next[0]; heap.front().from = curr; heap.front().target +=
heap.front().size; drop_front_in_heap(heap); }`.  Each firing stepper moves its
target past `index` (strides are positive), so `log_n + 1` rounds of fuel are
exact. -/
def fire_loop (h : Heap) (curr idx : Nat) : List stepper → Nat → Res (Heap × List stepper)
  | _, 0 => .timeout
  | [], _ + 1 => .err "oob"
  | f :: rest, fuel + 1 =>
    if f.target = idx then do
      let cn ← readN h curr
      let fn ← readN h f.frm
      let h2 := hset h f.frm { fn with next1 := cn.next0 }
      let st2 ← drop_front (⟨f.target + f.size, f.size, curr⟩ :: rest)
      fire_loop h2 curr idx st2 fuel
    else .ok (h, f :: rest)

/-- `balance_current_and_advance` (lines 63-76). -/
def bh_advance (h : Heap) (bh : balance_helper) : Res (Heap × balance_helper) := do
  let v ← bh_valid h bh
  if v then do
    let r ← fire_loop h bh.curr bh.index bh.steppers (bh.steppers.length + 1)
    let nd ← readN r.1 bh.curr
    match nd.next0 with
    | some c2 =>
      .ok (r.1, { bh with curr := c2, index := bh.index + 1, steppers := r.2 })
    | none => .err "null-deref"
  else .err "assert"

/-- The drain loop `while (*this) balance_current_and_advance();` used by the
destructor (lines 53-54) and by `rebalance` (lines 405-406). -/
def bh_drain (h : Heap) (bh : balance_helper) : Nat → Res (Heap × balance_helper)
  | 0 => .timeout
  | fuel + 1 => do
    let v ← bh_valid h bh
    if v then do
      let r ← bh_advance h bh
      bh_drain r.1 r.2 fuel
    else .ok (h, bh)

/-- The final writes of `~balance_helper` (lines 59-60):
`for (i = 0; i < log_n; i++) steppers[i].from->next[1] = curr;`. -/
def bh_final_writes (h : Heap) (c : Nat) : List stepper → Res Heap
  | [] => .ok h
  | st :: rest => do
    let fn ← readN h st.frm
    bh_final_writes (hset h st.frm { fn with next1 := some c }) c rest

/-- `~balance_helper` (lines 52-62): drain, then point every stepper's `from`
at the final `curr`. -/
def bh_destroy (h : Heap) (bh : balance_helper) (fuel : Nat) : Res Heap := do
  let r ← bh_drain h bh fuel
  bh_final_writes r.1 r.2.curr r.2.steppers

/-- The iterator: `(curr, prev)` plus an optional owned rebalancer. -/
structure iter where
  curr : Option Nat
  prev : Option Nat
  helper : Option balance_helper
deriving Repr, DecidableEq

/-- `begin` (lines 244-249): `{ head, needs_rebalance ? count : 0 }`; the
`iterator(node*, size_t)` constructor builds a `balance_helper` when the count
is positive. -/
def begin (s : power_list) : Res iter :=
  let c := if s.needs_rebalance then s.count else 0
  if c = 0 then .ok ⟨s.head, none, none⟩
  else
    match s.head with
    | some hd => do
      let bh ← mk_balance_helper s.heap hd c
      .ok ⟨s.head, none, some bh⟩
    | none => .err "null-deref"

/-- `iterator::operator++` (lines 148-155): assert non-end, one rebalance step
when the helper is live, then step along `next[0]`. -/
def it_inc (h : Heap) (it : iter) : Res (Heap × iter) :=
  match it.curr with
  | none => .err "assert"
  | some a => do
    let r ←
      match it.helper with
      | some bh => do
        let v ← bh_valid h bh
        if v then do
          let r2 ← bh_advance h bh
          pure (r2.1, some r2.2)
        else pure (h, some bh)
      | none => pure (h, (none : Option balance_helper))
    let nd ← readN r.1 a
    .ok (r.1, ⟨nd.next0, some a, r.2⟩)

/-- A full `for (T v : list)` traversal: values are collected via `operator*`,
the iterator advances to the end sentinel, and its destructor (which destroys
the helper) runs after the loop. -/
def traverse_go (h : Heap) (it : iter) (acc : List Int) : Nat → Res (List Int × Heap)
  | 0 => .timeout
  | fuel + 1 =>
    match it.curr with
    | none => do
      let h2 ←
        match it.helper with
        | some bh => bh_destroy h bh (fuel + 1)
        | none => pure h
      .ok (acc.reverse, h2)
    | some a => do
      let nd ← readN h a
      let r ← it_inc h it
      traverse_go r.1 r.2 (nd.data :: acc) fuel

def traverse (s : power_list) (fuel : Nat) : Res (List Int × power_list) := do
  let it ← begin s
  let r ← traverse_go s.heap it [] fuel
  .ok (r.1, { s with heap := r.2 })

/-- `rebalance` (lines 402-411): drain a fresh helper, let its destructor run,
clear the flag.  (The explicit drain plus the destructor's no-op drain equal a
single `bh_destroy`.) -/
def rebalance (s : power_list) (fuel : Nat) : Res power_list :=
  match s.head with
  | none => .ok s
  | some hd =>
    if s.needs_rebalance then do
      let bh ← mk_balance_helper s.heap hd s.count
      let h2 ← bh_destroy s.heap bh fuel
      .ok { s with heap := h2, needs_rebalance := false }
    else .ok s

/-! ### clear and assign_range (lines 282-339) -/

/-- `destroy_nodes` (lines 458-467): walk `next[0]` destroying each node;
`assert(n != next && "Node points to itself")`. -/
def destroy_walk (h : Heap) : Option Nat → Nat → Res Heap
  | none, _ => .ok h
  | some _, 0 => .timeout
  | some a, fuel + 1 => do
    let nd ← readN h a
    if nd.next0 = some a then .err "assert"
    else destroy_walk (hremove h a) nd.next0 fuel

/-- `clear` (lines 282-288): destroy the nodes, replace the allocator with a
fresh one (which releases every pool, so no node address stays readable), reset
the scalar state. -/
def clear (s : power_list) (fuel : Nat) : Res power_list := do
  let _ ← destroy_walk s.heap s.head fuel
  .ok ⟨[], none, 0, false, fresh_allocator⟩

def is_sorted : List Int → Bool
  | [] => true
  | [_] => true
  | a :: b :: t => decide (a ≤ b) && is_sorted (b :: t)

/-- The first construction loop of `assign_range` (lines 319-322): nodes
`0 ≤ i < logN` get `{ {&nodes[i+1], &nodes[i+1]}, range[i] }`. -/
def build_prefix (h : Heap) (b : Nat) (vals : List Int) : Nat → Nat → Res Heap
  | _, 0 => .ok h
  | i, k + 1 =>
    match vals.get? i with
    | none => .err "assert"
    | some v => build_prefix (hset h (b + i) ⟨some (b + i + 1), some (b + i + 1), v⟩)
        b vals (i + 1) k

/-- The second construction loop of `assign_range` (lines 328-332): for
`logN ≤ i < count - 1`, construct node `i` and advance the rebalancing
iterator once.  Structural on the remaining iteration count `k = count-1-i`. -/
def assign_loop (b : Nat) (vals : List Int) :
    Nat → Nat → Heap → iter → Res (Heap × iter)
  | _, 0, h, it => .ok (h, it)
  | i, k + 1, h, it =>
    match vals.get? i with
    | none => .err "assert"
    | some v => do
      let h1 := hset h (b + i) ⟨some (b + i + 1), some (b + i + 1), v⟩
      let r ← it_inc h1 it
      assign_loop b vals (i + 1) k r.1 r.2

/-- `assign_range` (lines 290-339).  The empty range returns immediately
without clearing; a non-empty list is cleared first (fresh allocator); the
single bulk allocation must arrive as one span of exactly `count` slots or the
callback's asserts fire; the first `logN` nodes are pre-seeded, the rest are
constructed while a rebalancing iterator advances, the tail gets
`{nullptr, self}`, and the iterator's destructor runs at scope exit. -/
def assign_range (s : power_list) (r : List Int) (fuel : Nat) : Res power_list :=
  if ¬ is_sorted r then .err "assert"
  else
    match r with
    | [] => .ok s
    | _ => do
      let s1 ← if s.head.isSome then clear s fuel else pure s
      let cnt := r.length
      let ra := allocate_with_callback s1.alloc cnt
      match ra.1 with
      | [(b, sz)] =>
        if sz ≠ cnt then .err "assert"
        else do
          let logN := bitWidth (cnt - 1)
          let h0 ← build_prefix s1.heap b r 0 logN
          let bh ← mk_balance_helper h0 b cnt
          let it0 : iter := ⟨some b, none, some bh⟩
          let r2 ← assign_loop b r logN (cnt - 1 - logN) h0 it0
          match r.get? (cnt - 1) with
          | none => .err "assert"
          | some vLast => do
            let h3 := hset r2.1 (b + (cnt - 1)) ⟨none, some (b + (cnt - 1)), vLast⟩
            let h4 ←
              match r2.2.helper with
              | some bh2 => bh_destroy h3 bh2 fuel
              | none => pure h3
            .ok { heap := h4, head := some b, count := cnt,
                  needs_rebalance := s1.needs_rebalance, alloc := ra.2 }
      | _ => .err "assert"

/-! ## Definitions used to state the claims -/

/-- Does the `next[0]` chain starting at `p` reach the null terminator within
`fuel` steps (never stepping through a dead node)? -/
def chain_reaches_end (h : Heap) : Option Nat → Nat → Bool
  | none, _ => true
  | some _, 0 => false
  | some a, fuel + 1 =>
    match hlookup h a with
    | none => false
    | some nd => chain_reaches_end h nd.next0 fuel

/-- The values met along the `next[0]` chain, up to `fuel` nodes. -/
def chain_vals (h : Heap) : Option Nat → Nat → List Int
  | none, _ => []
  | some _, 0 => []
  | some a, fuel + 1 =>
    match hlookup h a with
    | none => []
    | some nd => nd.data :: chain_vals h nd.next0 fuel

def pool_sizes (a : scatter_allocator) : List Nat := a.pools.map pool.size

def is_pow2 (n : Nat) : Prop := ∃ k, n = 2 ^ k

/-- Every pool capacity is a power of two at least `DefaultStartingSize`, and
each pool (newest first) is exactly twice its successor. -/
def caps_ok (l : List Nat) : Prop :=
  List.Chain' (fun x y => x = 2 * y) l ∧ ∀ n ∈ l, is_pow2 n ∧ DefaultStartingSize ≤ n

/-- Allocator states reachable from a fresh allocator by the public
operations. -/
inductive sa_reach : scatter_allocator → Prop where
  | init : sa_reach fresh_allocator
  | alloc (a : scatter_allocator) (n : Nat) (h : sa_reach a) :
      sa_reach (allocate_with_callback a n).2
  | dealloc (a : scatter_allocator) (sp : span) (h : sa_reach a) :
      sa_reach (deallocate a sp)
  | alloc_one (a : scatter_allocator) (h : sa_reach a) :
      sa_reach (allocate_one a).2

/-- Following the spec's words (§4.1): `next_pow2(n)`, the smallest power of
two that is at least `n`.  Used only to compare the spec's growth formula with
the code's. -/
def next_pow2_spec (n : Nat) : Nat := if n ≤ 1 then 1 else 2 ^ bitWidth (n - 1)

/-- Following the spec's words (§4.1, claim C8): the capacity the spec says a
newly added pool gets, given the unsatisfied remainder and the previous (newest)
pool capacity if any. -/
def spec_new_pool_cap (remaining : Nat) (prev : Option Nat) : Nat :=
  match prev with
  | none => max (next_pow2_spec remaining) DefaultStartingSize
  | some pc => max (next_pow2_spec remaining) (max (pc * 2) DefaultStartingSize)

/-- Is the span contained in the pool's data region? -/
def span_in_pool (sp : span) (p : pool) : Bool :=
  decide (p.base ≤ sp.1) && decide (sp.1 + sp.2 ≤ p.base + p.size)

/-! ### Concrete executions the claims are settled on -/

/-- C1's failing input: build `[1..8]` from a range, then `remove(7)`.  The
erase leaves `node 1`'s express pointer aimed at the freed node. -/
def c1_list : Res power_list :=
  Res.bind (assign_range empty_list [1, 2, 3, 4, 5, 6, 7, 8] 100)
    (fun s => remove s 7 100)

/-- C2's failing input: the list `[0, 1, 2, 3]` built from a range. -/
def c2_list : Res power_list := assign_range empty_list [0, 1, 2, 3] 100

/-- The heap `c2_list` produces (checked by `c2_list_value` below): the tail
node 3 has `next[1] = self`. -/
def c2_heap : Heap :=
  [(0, ⟨some 1, some 3, 0⟩), (1, ⟨some 2, some 3, 1⟩),
   (2, ⟨some 3, some 3, 2⟩), (3, ⟨none, some 3, 3⟩)]

def c2_state : power_list :=
  ⟨c2_heap, some 0, 4, false, ⟨[⟨4, 0, 16⟩], [], 16⟩⟩

/-- C3/C4's failing input: `insert 10; insert 20; remove 20; insert 30;
insert 40`.  The two inserts after the remove both receive address 1 from the
allocator (the freed block is never unlinked), so the second overwrites a live
node and the list links node 1 to itself. -/
def c34_list : Res power_list :=
  Res.bind (insert empty_list 10 100) (fun s1 =>
    Res.bind (insert s1 20 100) (fun s2 =>
      Res.bind (remove s2 20 100) (fun s3 =>
        Res.bind (insert s3 30 100) (fun s4 =>
          insert s4 40 100))))

/-- C5's input: `insert 1; insert 2`, leaving `needs_rebalance = true`. -/
def c5_list : Res power_list :=
  Res.bind (insert empty_list 1 100) (fun s1 => insert s1 2 100)

/-- C6's input: the clean two-element list `[10, 20]` built by inserts. -/
def c6_list : Res power_list :=
  Res.bind (insert empty_list 10 100) (fun s1 => insert s1 20 100)

/-- C7's run: allocate one slot, free it, then allocate twice with no
intervening deallocation.  Records the first handed-out span list, both
single-slot results, and the final free list. -/
def c7_run : List span × Option Nat × Option Nat × List span :=
  let r1 := allocate_with_callback fresh_allocator 1
  let a2 := deallocate r1.2 (0, 1)
  let r3 := allocate_one a2
  let r4 := allocate_one r3.2
  (r1.1, r3.1, r4.1, r4.2.free_list)

/-- C8's run: fill the first 16-slot pool, then request 100 slots when every
pool is exhausted. -/
def c8_code_caps : List Nat :=
  pool_sizes
    (allocate_with_callback
      (allocate_with_callback (allocate_with_callback fresh_allocator 10).2 6).2
      100).2

/-- C9's allocator: one live pool `[0, 16)`. -/
def c9_alloc : scatter_allocator := (allocate_with_callback fresh_allocator 4).2

/-- C9's second allocator: two live pools, `[16, 48)` (newest) and `[0, 16)`. -/
def c9b_alloc : scatter_allocator :=
  (allocate_with_callback (allocate_with_callback fresh_allocator 10).2 10).2

/-- C10's first input: the one-element list `[10]`. -/
def c10a_list : Res power_list := insert empty_list 10 100

/-- C10's second input: an empty list whose retained allocator holds a free
block (`insert 5; remove 5`). -/
def c10b_list : Res power_list :=
  Res.bind (insert empty_list 5 100) (fun s1 => remove s1 5 100)

def insert_each (s : power_list) : List Int → Res power_list
  | [] => .ok s
  | v :: t => Res.bind (insert s v 100) (fun s2 => insert_each s2 t)

def int_range (a : Int) : Nat → List Int
  | 0 => []
  | n + 1 => a :: int_range (a + 1) n

/-- The "Implicit rebalance" unit test of power_list.cpp, line 178-187: thirty
single inserts, a full traversal (which rebalances), then `contains(1)`. -/
def implicit_rebalance_run : Res (Int × Bool × Bool) :=
  Res.bind (insert_each empty_list (int_range (-10) 30)) (fun s =>
    Res.bind (traverse s 100) (fun r =>
      Res.map (fun f => (r.1.foldl (· + ·) 0, f.isSome, r.2.needs_rebalance))
        (find r.2 1 100)))

/-- The "scatters correctly" unit test of power_list.cpp, line 28-43: the spans
handed out by its two allocations. -/
def scatter_unittest_run : List span × List span :=
  let r1 := allocate_with_callback fresh_allocator 10
  let a2 := deallocate (deallocate r1.2 (2, 2)) (4, 2)
  let r2 := allocate_with_callback a2 20
  (r1.1, r2.1)

/-- The "Remove middle" unit test of power_list.cpp, line 158-167. -/
def remove_middle_run : Res power_list :=
  Res.bind (assign_range empty_list [0, 1, 2, 3, 4, 5, 6, 7] 100) (fun s0 =>
    Res.bind (remove s0 1 100) (fun s1 =>
      Res.bind (remove s1 2 100) (fun s2 =>
        Res.bind (remove s2 3 100) (fun s3 =>
          Res.bind (remove s3 4 100) (fun s4 =>
            Res.bind (remove s4 5 100) (fun s5 => remove s5 6 100))))))

/-! ## Model validation against the repository's own unit tests -/

/-- The embedded allocator reproduces the "scatters correctly" unit test: the
second allocation is served as spans of sizes 2, 2, 6, 10 in that order. -/
theorem scatter_matches_unittest :
    scatter_unittest_run = ([(0, 10)], [(4, 2), (2, 2), (10, 6), (16, 10)]) := by
  rfl

/-- The embedded list reproduces the "Remove middle" unit test: two elements
remain, with values 0 and 7. -/
theorem remove_middle_matches_unittest :
    Res.map (fun s => (s.count, chain_vals s.heap s.head 10)) remove_middle_run
      = Res.ok (2, [0, 7]) := by
  rfl

/-- The embedded list reproduces the "Implicit rebalance" unit test: the
traversal visits values summing to 135 and `contains(1)` holds afterwards
(while, as C5 records, `needs_rebalance` stays set). -/
theorem implicit_rebalance_matches_unittest :
    implicit_rebalance_run = Res.ok (135, true, true) := by
  rfl

/-- `c2_list` evaluates to the concrete state `c2_state` used by the
non-termination lemmas below. -/
theorem c2_list_value : c2_list = Res.ok c2_state := by rfl

/-! ## The claims -/

/-- C1: false on the code — `find` does not stay correct on every reachable
state.  On the state reached by `assign_range([1..8]); remove(7)` (whose
`needs_rebalance` is true), `find(4)` follows the express-lane comparison
`val > n->next[1]->data` at node 1, whose `next[1]` still aims at the freed
node 6: the search reads destroyed, poisoned memory instead of terminating
with a correct answer. -/
theorem C1_find_use_after_free :
    Res.bind c1_list (fun s => find s 4 100) = Res.err "use-after-free" := by
  rfl

/-- C3: false on the code — a reachable state's `next[0]` chain does not
consist of exactly `count` nodes.  After `insert 10; insert 20; remove 20;
insert 30; insert 40` the count is 3 but the chain never terminates (node 1 is
its own successor, because the allocator handed the freed address 1 to both of
the last two inserts and the second overwrote a live node); on this state the
source's own teardown assertion `assert(n != next && "Node points to itself")`
in `destroy_nodes` fires. -/
theorem C3_chain_not_count_nodes :
    Res.map
      (fun s => (s.count, chain_reaches_end s.heap s.head s.count,
        chain_reaches_end s.heap s.head 10))
      c34_list = Res.ok (3, false, false) ∧
    Res.bind c34_list (fun s => destroy_walk s.heap s.head 100)
      = Res.err "assert" := by
  exact ⟨rfl, rfl⟩

/-- C4: false on the code — on the same reachable state as C3, `count = 3` yet
no live node has `next[0] == null` at all (node 1 points to itself), so
`head->next[1]` (which is node 1) is not the tail node the claim requires. -/
theorem C4_head_express_lane_broken :
    Res.map
      (fun s => (s.head, s.count, (hlookup s.heap 0).map node.next1,
        (hlookup s.heap 1).map node.next0,
        s.heap.all (fun p => p.2.next0.isSome)))
      c34_list = Res.ok (some 0, 3, some (some 1), some (some 1), true) := by
  rfl

/-- C5: false on the code — a full traversal does not clear `needs_rebalance`.
The iterator performs the rebalance steps but holds no reference to the list,
so after iterating `[1, 2]` to the end sentinel the flag is still set. -/
theorem C5_traversal_keeps_flag_set :
    Res.bind c5_list
      (fun s => Res.map (fun r => (r.1, r.2.needs_rebalance)) (traverse s 100))
      = Res.ok ([1, 2], true) := by
  rfl

/-- C6: false on the code — inserting a value equal to the front element of a
non-empty list dereferences a null pointer: `lower_bound(v)` returns
`prev == nullptr` whenever `v` is not greater than the head value, and the
interior branch writes through `it.prev`. -/
theorem C6_insert_front_duplicate_null_deref :
    Res.bind c6_list (fun s => insert s 10 100) = Res.err "null-deref" := by
  rfl

/-- C7: false on the code — live spans can overlap.  When a request is
satisfied exactly at a free block, `allocate_with_callback` returns without
unlinking or shrinking the block, so the block stays on the free list and the
very same slot is handed out by the next allocation: after freeing slot 0,
two consecutive `allocate_one` calls both return address 0, and the block
`(0, 1)` is still free afterwards. -/
theorem C7_one_slot_handed_out_twice :
    c7_run = ([(0, 1)], some 0, some 0, [(0, 1)]) := by
  rfl

/-- C9: false on the code in both directions.  `valid_addr`'s two distance
inequalities both reduce to `p >= begin`, so with one live pool `[0, 16)` the
out-of-range address 100 passes validation even though it lies in no pool; and
because `validate_addr` conjoins `valid_addr` over every pool instead of
requiring membership in some pool, with two live pools (`[16, 48)` and
`[0, 16)`) the span `(0, 4)` lying inside the live pool `[0, 16)` is
rejected, so `deallocate` of a legitimately handed-out span fails its
assertion. -/
theorem C9_validate_accepts_foreign_span :
    (validate_addr c9_alloc (100, 1) = true ∧
      c9_alloc.pools.all (fun p => ! span_in_pool (100, 1) p) = true ∧
      c9_alloc.pools ≠ []) ∧
    (validate_addr c9b_alloc (0, 4) = false ∧
      c9b_alloc.pools.any (fun p => span_in_pool (0, 4) p) = true) := by
  refine ⟨⟨rfl, rfl, ?_⟩, rfl, rfl⟩
  decide

/-- C10: false on the code — `assign_range` neither clears on an empty range
(the list `[10]` keeps its element) nor works on every list: on an empty list
whose retained allocator has a stale free block, the bulk allocation splits
into two spans and the source's own `assert(span.size() == count)` fires. -/
theorem C10_assign_range_failures :
    Res.bind c10a_list
        (fun s => Res.map (fun s2 => (s2.count, s2.head.isSome)) (assign_range s [] 100))
        = Res.ok (1, true) ∧
      Res.bind c10b_list (fun s => assign_range s [1, 2] 100) = Res.err "assert" := by
  exact ⟨rfl, rfl⟩

/-- On `c2_heap`, the `lower_bound` loop is stationary at the tail: node 3 has
`next[1] = self` and `10 > 3`, so `curr = curr->next[1]` never moves. -/
theorem c2_lb_stuck_self (f : Nat) :
    lb_loop c2_heap 10 3 (some 3) f = Res.timeout := by
  induction f with
  | zero => rfl
  | succ g ih =>
    have h : lb_loop c2_heap 10 3 (some 3) (g + 1)
        = lb_loop c2_heap 10 3 (some 3) g := rfl
    rw [h]
    exact ih

theorem c2_lb_stuck_one (f : Nat) :
    lb_loop c2_heap 10 3 (some 0) f = Res.timeout := by
  cases f with
  | zero => rfl
  | succ g =>
    have h : lb_loop c2_heap 10 3 (some 0) (g + 1)
        = lb_loop c2_heap 10 3 (some 3) g := rfl
    rw [h]
    exact c2_lb_stuck_self g

theorem c2_lb_stuck_head (f : Nat) :
    lb_loop c2_heap 10 0 none f = Res.timeout := by
  cases f with
  | zero => rfl
  | succ g =>
    have h : lb_loop c2_heap 10 0 none (g + 1)
        = lb_loop c2_heap 10 3 (some 0) g := rfl
    rw [h]
    exact c2_lb_stuck_one g

/-- C2: false on the code — `lower_bound(v)` does not terminate when `v`
exceeds every stored value.  Unlike `find`, `lower_bound` has no
`v > tail->value` guard (spec §4.2 step 1 requires one): on the list
`[0, 1, 2, 3]` the descent reaches the tail, whose `next[1]` is itself, and
`curr = curr->next[1]` loops forever — for every fuel bound the embedded loop
times out. -/
theorem C2_lower_bound_diverges (fuel : Nat) :
    Res.bind c2_list (fun s => lower_bound s 10 fuel) = Res.timeout := by
  have h : Res.bind c2_list (fun s => lower_bound s 10 fuel)
      = Res.bind (lb_loop c2_heap 10 0 none fuel) (fun r => Res.ok (some r)) := rfl
  rw [h, c2_lb_stuck_head fuel]
  rfl

/-- C8 counterexample: with a full 16-slot pool and 100 slots still needed, the
spec's formula `max(next_pow2(remaining), prev_cap * 2, DefaultStartingSize)`
gives one new pool of 128, but the code ignores `remaining` once a pool exists
(`pools->data.size() << 1`) and adds pools 32, 64, 128. -/
theorem C8_growth_differs_from_spec :
    c8_code_caps = [128, 64, 32, 16] ∧
      spec_new_pool_cap 100 (some 16) = 128 ∧
      c8_code_caps ≠ [spec_new_pool_cap 100 (some 16), 16] := by
  refine ⟨rfl, rfl, ?_⟩
  decide

theorem caps_ok_nil : caps_ok [] := by
  constructor
  · exact List.chain'_nil
  · intro n hn
    cases hn

theorem is_pow2_max_pow2 (a b : Nat) : is_pow2 (max (2 ^ a) (2 ^ b)) := by
  rcases Nat.le_total a b with h | h
  · rw [Nat.max_eq_right (Nat.pow_le_pow_right (by norm_num) h)]
    exact ⟨b, rfl⟩
  · rw [Nat.max_eq_left (Nat.pow_le_pow_right (by norm_num) h)]
    exact ⟨a, rfl⟩

/-- Prepending a pool of the capacity `add_pool`'s caller computes preserves
the doubling invariant. -/
theorem new_pool_cap_caps (ps : List pool) (rem : Nat)
    (h : caps_ok (ps.map pool.size)) :
    caps_ok (new_pool_cap ps rem :: ps.map pool.size) := by
  match ps with
  | [] =>
    refine ⟨List.chain'_singleton _, ?_⟩
    intro n hn
    have hn2 : n = new_pool_cap [] rem := by simpa using hn
    subst hn2
    have he : new_pool_cap [] rem = max (2 ^ bitWidth rem) (2 ^ 4) := rfl
    constructor
    · rw [he]
      exact is_pow2_max_pow2 _ _
    · rw [he]
      exact Nat.le_max_right _ _
  | p :: ps2 =>
    have hcap : new_pool_cap (p :: ps2) rem = p.size * 2 := rfl
    have hmem : is_pow2 p.size ∧ DefaultStartingSize ≤ p.size := by
      apply h.2
      simp
    constructor
    · rw [List.map_cons, List.chain'_cons, hcap]
      exact ⟨Nat.mul_comm p.size 2, by simpa using h.1⟩
    · intro n hn
      rcases List.mem_cons.mp hn with hn | hn
      · subst hn
        rw [hcap]
        obtain ⟨⟨k, hk⟩, hle⟩ := hmem
        refine ⟨⟨k + 1, ?_⟩, ?_⟩
        · rw [hk, Nat.pow_succ]
        · exact hle.trans (Nat.le_mul_of_pos_right _ (by norm_num))
      · exact h.2 n hn

theorem grow_loop_caps (fuel : Nat) :
    ∀ (rem : Nat) (ps : List pool) (nb : Nat), caps_ok (ps.map pool.size) →
      caps_ok (((grow_loop fuel rem ps nb).2.1).map pool.size) := by
  induction fuel with
  | zero => intro rem ps nb h; exact h
  | succ f ih =>
    intro rem ps nb h
    match rem with
    | 0 => exact h
    | r + 1 =>
      have e : (grow_loop (f + 1) (r + 1) ps nb).2.1
          = (grow_loop f ((r + 1) - min (r + 1) (new_pool_cap ps (r + 1)))
              (⟨min (r + 1) (new_pool_cap ps (r + 1)), nb, new_pool_cap ps (r + 1)⟩ :: ps)
              (nb + new_pool_cap ps (r + 1))).2.1 := rfl
      rw [e]
      apply ih
      exact new_pool_cap_caps ps (r + 1) h

theorem consume_pools_sizes (rem : Nat) (ps : List pool) :
    ((consume_pools rem ps).2.1).map pool.size = ps.map pool.size := by
  induction ps generalizing rem with
  | nil => rfl
  | cons p ps2 ih =>
    by_cases h0 : rem = 0
    · simp [consume_pools, h0]
    · by_cases hm : min rem (p.size - p.next_available) = 0
      · simp [consume_pools, h0, hm, ih]
      · simp [consume_pools, h0, hm, ih]

theorem allocate_caps (a : scatter_allocator) (n : Nat)
    (h : caps_ok (pool_sizes a)) :
    caps_ok (pool_sizes (allocate_with_callback a n).2) := by
  by_cases h0 : (alloc_free n a.free_list).2.2 = 0
  · have e : (allocate_with_callback a n).2
        = { a with free_list := (alloc_free n a.free_list).2.1 } := by
      simp [allocate_with_callback, h0]
    rw [e]
    exact h
  · have e : pool_sizes (allocate_with_callback a n).2
        = ((grow_loop ((consume_pools (alloc_free n a.free_list).2.2 a.pools).2.2 + 1)
            (consume_pools (alloc_free n a.free_list).2.2 a.pools).2.2
            (consume_pools (alloc_free n a.free_list).2.2 a.pools).2.1
            a.next_base).2.1).map pool.size := by
      simp [allocate_with_callback, h0, pool_sizes]
    rw [e]
    apply grow_loop_caps
    rw [consume_pools_sizes]
    exact h

/-- C8 (amended): once a pool exists the code's new capacity is exactly
`prev_cap * 2` regardless of the remaining request, and the first pool's
capacity is `max(2 ^ bit_width(remaining), DefaultStartingSize)` (the smallest
power of two strictly greater than `remaining`, bumped to the start size);
consequently, in every reachable allocator state each pool's capacity is a
power of two that is at least `DefaultStartingSize`, and successive pool
capacities double. -/
theorem C8_pool_caps_double (a : scatter_allocator) (h : sa_reach a) :
    caps_ok (pool_sizes a) := by
  induction h with
  | init => exact caps_ok_nil
  | alloc a n _ ih => exact allocate_caps a n ih
  | dealloc a sp _ ih => exact ih
  | alloc_one a _ ih => exact allocate_caps a 1 ih

theorem C8_pool_caps_double_witness :
    sa_reach (allocate_with_callback fresh_allocator 100).2 ∧
      caps_ok (pool_sizes (allocate_with_callback fresh_allocator 100).2) :=
  ⟨sa_reach.alloc fresh_allocator 100 sa_reach.init,
    C8_pool_caps_double (allocate_with_callback fresh_allocator 100).2
      (sa_reach.alloc fresh_allocator 100 sa_reach.init)⟩

end kg
